import Mathlib

set_option autoImplicit false

/-!
Verification of `scripts/smart_updater.py`: the JSON-backed content store,
the deduplicate-and-merge routine, and the source adapters.

Items are Python dicts with string keys; the values that occur are strings
and lists of strings, so a field value is modelled by `Value` and an item by
an association list from field names to values.
-/

/-- A JSON-ish field value as used by the script: a string or a list of strings. -/
inductive Value where
  | str : String → Value
  | strs : List String → Value
deriving DecidableEq

/-- A content item: a Python dict from field names to values. -/
def Item : Type := List (String × Value)

instance : DecidableEq Item := by unfold Item; infer_instance

/-- `item[k]` when present: first binding of the field `k`. -/
def getField (item : Item) (k : String) : Option Value :=
  match item with
  | [] => none
  | (k', v) :: rest => if k' = k then some v else getField rest k

/-- Python `k in item`. -/
def hasField (item : Item) (k : String) : Bool :=
  (getField item k).isSome

/-- The body of the loop of `is_duplicate` for a single existing item:
`if key in item and key in existing: return item[key] == existing[key]`
`elif 'url' in item and 'url' in existing: return item['url'] == existing['url']`
(the `elif` runs only when the key is absent from at least one of the two). -/
def dupHit (key : String) (item existing : Item) : Bool :=
  if hasField item key && hasField existing key then
    decide (getField item key = getField existing key)
  else if hasField item "url" && hasField existing "url" then
    decide (getField item "url" = getField existing "url")
  else
    false

/-- `is_duplicate(item, existing_items, key)` from the script: scan the
existing list and report whether any entry matches. -/
def is_duplicate (item : Item) (existing_items : List Item) (key : String) : Bool :=
  existing_items.any (dupHit key item)

/-- One iteration of the merge loop in `smart_update`:
`if not is_duplicate(cand, acc, key): acc.insert(0, cand); count += 1`. -/
def mergeStep (key : String) (acc : List Item × Nat) (cand : Item) : List Item × Nat :=
  if is_duplicate cand acc.1 key then acc else (cand :: acc.1, acc.2 + 1)

/-- The merge engine of the spec (the candidate loops of `smart_update`,
lines 174-190): fold the candidates in input order over the existing list,
prepending each non-duplicate and counting additions. -/
def dedupe_and_merge (candidates existing : List Item) (key : String) : List Item × Nat :=
  candidates.foldl (mergeStep key) (existing, 0)

/-- The persisted content store: three item lists plus a nullable timestamp. -/
structure ContentStore where
  quotes : List Item
  articles : List Item
  videos : List Item
  last_updated : Option String
deriving DecidableEq

/-- The store `load_existing_data` builds when the file is absent. -/
def freshStore : ContentStore :=
  ⟨[], [], [], none⟩

/-- Outcome of trying to open and JSON-parse the data file. -/
inductive FileReadOutcome where
  | fileNotFound
  | unreadable
  | malformed
  | parsed (data : ContentStore)
deriving DecidableEq

/-- `load_existing_data` from the script. The `try` block opens and parses the
file; only `FileNotFoundError` is caught (returning the fresh empty store).
Any other open error (`unreadable`) or a JSON parse error (`malformed`)
propagates out of the function, modelled as `Except.error`. -/
def load_existing_data : FileReadOutcome → Except String ContentStore
  | .fileNotFound => .ok freshStore
  | .unreadable => .error "OSError"
  | .malformed => .error "json.JSONDecodeError"
  | .parsed d => .ok d

/-- `save_data` from the script: set `last_updated` to the current instant and
write the full JSON representation; the returned store is the written file. -/
def save_data (data : ContentStore) (now : String) : ContentStore :=
  ⟨data.quotes, data.articles, data.videos, some now⟩

/-- The quote branch of `smart_update`: the single fetched quote (if any) is
added to the front of the quotes list unless it is a duplicate under the
default key `content`. -/
def quoteMerge (daily_quote : Option Item) (quotes : List Item) : List Item × Nat :=
  match daily_quote with
  | some q => if is_duplicate q quotes "content" then (quotes, 0) else (q :: quotes, 1)
  | none => (quotes, 0)

/-- Result of one run of `smart_update`: the in-memory store at the end, the
`new_items` counter, and the list of file writes performed. -/
structure RunResult where
  final : ContentStore
  new_items : Nat
  writes : List ContentStore
deriving DecidableEq

/-- `smart_update` from the script, parametrised by the adapter results: merge
the daily quote into the quotes, the fetched videos and articles into their
lists with dedup key `url`, and call `save_data` exactly when `new_items > 0`. -/
def smart_update (daily_quote : Option Item) (new_videos new_articles : List Item)
    (init : ContentStore) (now : String) : RunResult :=
  let qm := quoteMerge daily_quote init.quotes
  let vm := dedupe_and_merge new_videos init.videos "url"
  let am := dedupe_and_merge new_articles init.articles "url"
  let data : ContentStore := ⟨qm.1, am.1, vm.1, init.last_updated⟩
  let n := qm.2 + vm.2 + am.2
  if 0 < n then
    ⟨save_data data now, n, [save_data data now]⟩
  else
    ⟨data, n, []⟩

/-- One search result of the video platform API, with the fields the script
consumes from `response['items']`. -/
structure SearchResult where
  title : String
  description : String
  videoId : String
  thumbnailHigh : String
  publishedAt : String
deriving DecidableEq

/-- Python string slicing `s[:n]`: the first `n` characters. -/
def pySlice (s : String) (n : Nat) : String :=
  String.mk (s.toList.take n)

/-- The dict built for each API search result inside
`fetch_recent_youtube_videos`. -/
def video_item_of (r : SearchResult) : Item :=
  [("title", .str r.title),
   ("description", .str (pySlice r.description 300)),
   ("url", .str ("https://www.youtube.com/watch?v=" ++ r.videoId)),
   ("thumbnail", .str r.thumbnailHigh),
   ("date", .str (pySlice r.publishedAt 10)),
   ("source", .str "YouTube Official"),
   ("tags", .strs ["video", "youtube"]),
   ("type", .str "video")]

/-- Outcome of the API query performed inside the `try` block. -/
inductive ApiOutcome where
  | success (items : List SearchResult)
  | failure (msg : String)
deriving DecidableEq

/-- `fetch_recent_youtube_videos` from the script, parametrised by the API key
(empty string when the environment variable is unset, which Python's
`if not YOUTUBE_API_KEY` treats as falsy) and the query outcome. The whole
query is wrapped in `try ... except Exception`, which returns `[]`; an
uncaught exception would be `Except.error`, and no branch produces one. -/
def fetch_recent_youtube_videos (apiKey : String) (outcome : ApiOutcome) :
    Except String (List Item) :=
  if apiKey = "" then
    .ok []
  else
    match outcome with
    | .success items => .ok (items.map video_item_of)
    | .failure _ => .ok []

-- Sample concrete items used by witnesses and counterexamples.

/-- Sample existing item with title `X` and url `u1`. -/
def itemTitleX : Item := [("title", .str "X"), ("url", .str "u1")]

/-- Sample candidate item with title `Y` and the same url `u1`. -/
def itemTitleY : Item := [("title", .str "Y"), ("url", .str "u1")]

/-- Sample quote item with content `A`. -/
def quoteA : Item := [("content", .str "A"), ("url", .str "u1")]

/-- Sample quote item with content `B`. -/
def quoteB : Item := [("content", .str "B"), ("url", .str "u2")]

/-- The empty item `{}` (no fields at all). -/
def emptyItem : Item := []

/-- A sample API search result. -/
def sampleResult : SearchResult :=
  ⟨"title one", "some description", "abc123", "https://img.example/hq.jpg", "2025-01-02T03:04:05Z"⟩

/-- No two items of `L` carry the same value of the field `k`: whenever an
earlier item has the field, any later item disagrees on it. -/
def keyDistinct (k : String) (L : List Item) : Prop :=
  L.Pairwise (fun a b => hasField a k = true → getField a k ≠ getField b k)

-- Helper lemmas about `is_duplicate` and the merge fold.

theorem is_duplicate_iff {item : Item} {L : List Item} {k : String} :
    is_duplicate item L k = true ↔ ∃ e ∈ L, dupHit k item e = true := by
  simp [is_duplicate, List.any_eq_true]

theorem dupHit_self {k : String} {c : Item}
    (h : hasField c k = true ∨ hasField c "url" = true) : dupHit k c c = true := by
  unfold dupHit
  cases hk : hasField c k with
  | true => simp [hk]
  | false =>
    rcases h with h | h
    · rw [hk] at h
      exact absurd h (by simp)
    · simp [hk, h]

theorem is_duplicate_mono {item : Item} {L L' : List Item} {k : String}
    (hsub : ∀ x ∈ L, x ∈ L') (h : is_duplicate item L k = true) :
    is_duplicate item L' k = true := by
  rw [is_duplicate_iff] at h ⊢
  obtain ⟨e, he, hd⟩ := h
  exact ⟨e, hsub e he, hd⟩

theorem is_duplicate_of_mem {c : Item} {L : List Item} {k : String}
    (hc : c ∈ L) (h : hasField c k = true ∨ hasField c "url" = true) :
    is_duplicate c L k = true :=
  is_duplicate_iff.mpr ⟨c, hc, dupHit_self h⟩

theorem mergeStep_of_dup {k : String} {L : List Item} {n : Nat} {c : Item}
    (h : is_duplicate c L k = true) : mergeStep k (L, n) c = (L, n) := by
  simp [mergeStep, h]

theorem mergeStep_of_new {k : String} {L : List Item} {n : Nat} {c : Item}
    (h : is_duplicate c L k = false) : mergeStep k (L, n) c = (c :: L, n + 1) := by
  simp [mergeStep, h]

theorem foldl_merge_subset (k : String) :
    ∀ (C L : List Item) (n : Nat) (x : Item),
      x ∈ L → x ∈ (C.foldl (mergeStep k) (L, n)).1 := by
  intro C
  induction C with
  | nil => intro L n x hx; exact hx
  | cons c C ih =>
    intro L n x hx
    simp only [List.foldl_cons]
    by_cases h : is_duplicate c L k = true
    · rw [mergeStep_of_dup h]
      exact ih L n x hx
    · rw [mergeStep_of_new (by simpa using h)]
      exact ih (c :: L) (n + 1) x (List.mem_cons_of_mem c hx)

theorem merge_structure (k : String) :
    ∀ (C L : List Item) (n : Nat),
      ∃ A : List Item, A.Sublist C ∧
        (C.foldl (mergeStep k) (L, n)).1 = A.reverse ++ L ∧
        (C.foldl (mergeStep k) (L, n)).2 = n + A.length := by
  intro C
  induction C with
  | nil =>
    intro L n
    exact ⟨[], List.Sublist.refl _, rfl, rfl⟩
  | cons c C ih =>
    intro L n
    simp only [List.foldl_cons]
    by_cases h : is_duplicate c L k = true
    · rw [mergeStep_of_dup h]
      obtain ⟨A, hA, h1, h2⟩ := ih L n
      exact ⟨A, List.Sublist.cons c hA, h1, h2⟩
    · rw [mergeStep_of_new (by simpa using h)]
      obtain ⟨A, hA, h1, h2⟩ := ih (c :: L) (n + 1)
      refine ⟨c :: A, List.Sublist.cons₂ c hA, ?_, ?_⟩
      · rw [h1]
        simp
      · rw [h2]
        simp only [List.length_cons]
        omega

theorem not_duplicate_key_ne {c : Item} {L : List Item} {k : String}
    (h : is_duplicate c L k = false) :
    ∀ e ∈ L, hasField c k = true → getField c k ≠ getField e k := by
  intro e he hck heq
  have hek : hasField e k = true := by
    unfold hasField at hck ⊢
    rw [← heq]
    exact hck
  have hd : dupHit k c e = true := by
    unfold dupHit
    rw [hck, hek]
    simp [heq]
  have : is_duplicate c L k = true := is_duplicate_iff.mpr ⟨e, he, hd⟩
  rw [h] at this
  exact absurd this (by simp)

theorem keyDistinct_merge (k : String) :
    ∀ (C L : List Item) (n : Nat), keyDistinct k L →
      keyDistinct k (C.foldl (mergeStep k) (L, n)).1 := by
  intro C
  induction C with
  | nil => intro L n h; exact h
  | cons c C ih =>
    intro L n h
    simp only [List.foldl_cons]
    by_cases hd : is_duplicate c L k = true
    · rw [mergeStep_of_dup hd]
      exact ih L n h
    · rw [mergeStep_of_new (by simpa using hd)]
      refine ih (c :: L) (n + 1) (List.Pairwise.cons ?_ h)
      intro e he hck
      have hd' : is_duplicate c L k = false := by simpa using hd
      exact not_duplicate_key_ne hd' e he hck

theorem mem_or_duplicate_after_merge (k : String) :
    ∀ (C L : List Item) (n : Nat) (c : Item), c ∈ C →
      c ∈ (C.foldl (mergeStep k) (L, n)).1 ∨
        is_duplicate c (C.foldl (mergeStep k) (L, n)).1 k = true := by
  intro C
  induction C with
  | nil => intro L n c hc; exact absurd hc (List.not_mem_nil c)
  | cons c' C ih =>
    intro L n c hc
    simp only [List.foldl_cons]
    by_cases hd : is_duplicate c' L k = true
    · rw [mergeStep_of_dup hd]
      rcases List.mem_cons.mp hc with rfl | hc'
      · right
        exact is_duplicate_mono (fun x hx => foldl_merge_subset k C L n x hx) hd
      · exact ih L n c hc'
    · rw [mergeStep_of_new (by simpa using hd)]
      rcases List.mem_cons.mp hc with rfl | hc'
      · left
        exact foldl_merge_subset k C (c :: L) (n + 1) c (List.mem_cons_self c L)
      · exact ih (c' :: L) (n + 1) c hc'

theorem merge_all_duplicates (k : String) :
    ∀ (C L : List Item) (n : Nat), (∀ c ∈ C, is_duplicate c L k = true) →
      C.foldl (mergeStep k) (L, n) = (L, n) := by
  intro C
  induction C with
  | nil => intro L n _; rfl
  | cons c C ih =>
    intro L n h
    simp only [List.foldl_cons]
    rw [mergeStep_of_dup (h c (List.mem_cons_self c C))]
    exact ih L n (fun x hx => h x (List.mem_cons_of_mem c hx))

theorem pySlice_length_le (s : String) (n : Nat) : (pySlice s n).length ≤ n := by
  show (s.toList.take n).length ≤ n
  rw [List.length_take]
  omega

-- Claim theorems.

/-- C1, counterexample: with key `title` present on both items with differing
values and equal urls, the candidate is NOT treated as a duplicate and the
merge does add it, contradicting the claim that URL is a fallback match
regardless of the primary key. -/
theorem C1_url_fallback_counterexample :
    is_duplicate itemTitleY [itemTitleX] "title" = false ∧
    dedupe_and_merge [itemTitleY] [itemTitleX] "title" = ([itemTitleY, itemTitleX], 1) := by
  decide

/-- C1, amended: the URL comparison is a fallback used only when the dedup key
is missing from at least one of the two items; when the key is present on both
with differing values, the pair is not a duplicate even if the URLs agree, and
the candidate is added by the merge. -/
theorem C1_url_fallback_only_when_key_missing (item e : Item) (k : String)
    (h1 : hasField item k = true) (h2 : hasField e k = true)
    (h3 : getField item k ≠ getField e k) :
    is_duplicate item [e] k = false ∧
    dedupe_and_merge [item] [e] k = ([item, e], 1) := by
  have hd : dupHit k item e = false := by
    unfold dupHit
    rw [h1, h2]
    simp [h3]
  have hdup : is_duplicate item [e] k = false := by
    simp [is_duplicate, hd]
  refine ⟨hdup, ?_⟩
  unfold dedupe_and_merge
  simp [mergeStep, hdup]

/-- C1, witness for the amended theorem at the spec's own example. -/
theorem C1_amended_witness :
    is_duplicate itemTitleY [itemTitleX] "title" = false ∧
    dedupe_and_merge [itemTitleY] [itemTitleX] "title" = ([itemTitleY, itemTitleX], 1) :=
  C1_url_fallback_only_when_key_missing itemTitleY itemTitleX "title"
    (by decide) (by decide) (by decide)

/-- C2, counterexample: the empty item (no dedup key, no url) is re-added on
the second merge, so the merge is not idempotent in general. -/
theorem C2_idempotence_counterexample :
    (dedupe_and_merge [emptyItem]
      ((dedupe_and_merge [emptyItem] [] "content").1) "content").2 ≠ 0 := by
  decide

/-- C2, amended: the merge is idempotent provided every candidate carries the
dedup key field or a url field: merging the same candidates a second time then
adds zero items. -/
theorem C2_merge_idempotent_of_keyed (C E : List Item) (k : String)
    (h : ∀ c ∈ C, hasField c k = true ∨ hasField c "url" = true) :
    (dedupe_and_merge C (dedupe_and_merge C E k).1 k).2 = 0 := by
  unfold dedupe_and_merge
  have hall : ∀ c ∈ C, is_duplicate c ((C.foldl (mergeStep k) (E, 0)).1) k = true := by
    intro c hc
    rcases mem_or_duplicate_after_merge k C E 0 c hc with hm | hd
    · exact is_duplicate_of_mem hm (h c hc)
    · exact hd
  rw [merge_all_duplicates k C _ 0 hall]

/-- C2, witness: re-merging two keyed quotes adds nothing. -/
theorem C2_idempotent_witness :
    (dedupe_and_merge [quoteA, quoteB]
      ((dedupe_and_merge [quoteA, quoteB] [] "content").1) "content").2 = 0 :=
  C2_merge_idempotent_of_keyed [quoteA, quoteB] [] "content" (by decide)

/-- C3, counterexample: on a malformed (unparseable) file the loader raises
`json.JSONDecodeError` instead of returning a fresh empty store, so loading is
not total over unreadable input. -/
theorem C3_load_counterexample :
    load_existing_data FileReadOutcome.malformed = Except.error "json.JSONDecodeError" := rfl

/-- C3, amended: only an absent file (`FileNotFoundError`) yields the fresh
empty store with null `last_updated`; a malformed or unreadable file raises an
uncaught error that aborts the run. -/
theorem C3_load_amended :
    load_existing_data FileReadOutcome.fileNotFound = Except.ok freshStore ∧
    (∃ e, load_existing_data FileReadOutcome.malformed = Except.error e) ∧
    (∃ e, load_existing_data FileReadOutcome.unreadable = Except.error e) ∧
    freshStore.quotes = [] ∧ freshStore.articles = [] ∧ freshStore.videos = [] ∧
    freshStore.last_updated = none :=
  ⟨rfl, ⟨_, rfl⟩, ⟨_, rfl⟩, rfl, rfl, rfl, rfl⟩

/-- C4: an item carrying neither the dedup key nor a url is never classified
as a duplicate against any existing list, and is always added by the merge
wherever it occurs among the candidates. -/
theorem C4_no_key_no_url_always_added (c : Item) (k : String)
    (h1 : hasField c k = false) (h2 : hasField c "url" = false) :
    (∀ E : List Item, is_duplicate c E k = false) ∧
    (∀ (Cs1 Cs2 E : List Item), c ∈ (dedupe_and_merge (Cs1 ++ c :: Cs2) E k).1) := by
  have hhit : ∀ e : Item, dupHit k c e = false := by
    intro e
    unfold dupHit
    rw [h1, h2]
    simp
  have hnd : ∀ E : List Item, is_duplicate c E k = false := by
    intro E
    simp [is_duplicate, hhit]
  refine ⟨hnd, ?_⟩
  intro Cs1 Cs2 E
  unfold dedupe_and_merge
  rw [List.foldl_append]
  generalize Cs1.foldl (mergeStep k) (E, 0) = acc
  obtain ⟨L', n'⟩ := acc
  simp only [List.foldl_cons]
  rw [mergeStep_of_new (hnd L')]
  exact foldl_merge_subset k Cs2 (c :: L') (n' + 1) c (List.mem_cons_self c L')

/-- C4, witness: the empty item is added against a nonempty existing list. -/
theorem C4_witness :
    is_duplicate emptyItem [itemTitleX] "content" = false ∧
    emptyItem ∈ (dedupe_and_merge [emptyItem] [itemTitleX] "content").1 := by
  have h := C4_no_key_no_url_always_added emptyItem "content" (by decide) (by decide)
  exact ⟨h.1 [itemTitleX], h.2 [] [] [itemTitleX]⟩

/-- C5: each accepted candidate is prepended, so two mutually non-duplicate
candidates merged into an empty list come out in reverse order; in general the
updated list is the reverse of the accepted sub-sequence of the candidates,
placed before the existing items, and the count is the number accepted. -/
theorem C5_prepend_ordering :
    (∀ (v1 v2 : Item) (k : String), is_duplicate v2 [v1] k = false →
      dedupe_and_merge [v1, v2] [] k = ([v2, v1], 2)) ∧
    (∀ (C E : List Item) (k : String), ∃ A : List Item, A.Sublist C ∧
      (dedupe_and_merge C E k).1 = A.reverse ++ E ∧
      (dedupe_and_merge C E k).2 = A.length) := by
  constructor
  · intro v1 v2 k h
    have h1 : is_duplicate v1 [] k = false := rfl
    unfold dedupe_and_merge
    simp only [List.foldl_cons, List.foldl_nil]
    rw [mergeStep_of_new h1]
    rw [mergeStep_of_new h]
  · intro C E k
    obtain ⟨A, hA, h1, h2⟩ := merge_structure k C E 0
    exact ⟨A, hA, h1, by simpa using h2⟩

/-- C5, witness: two distinct quotes into the empty list come out reversed. -/
theorem C5_ordering_witness :
    dedupe_and_merge [quoteA, quoteB] [] "content" = ([quoteB, quoteA], 2) :=
  C5_prepend_ordering.1 quoteA quoteB "content" (by decide)

/-- C6: a run writes the file at most once, exactly when `new_items` is
positive, and every written store has a non-null `last_updated`. -/
theorem C6_save_once_per_run (q : Option Item) (vs arts : List Item)
    (init : ContentStore) (now : String) :
    (smart_update q vs arts init now).writes.length ≤ 1 ∧
    ((smart_update q vs arts init now).writes.length = 1 ↔
      0 < (smart_update q vs arts init now).new_items) ∧
    ((smart_update q vs arts init now).writes.all
      (fun w => w.last_updated.isSome)) = true := by
  dsimp only [smart_update]
  split
  next h => simp [save_data, h]
  next h => simp [h]

/-- C7: if no two items of the existing list share the dedup key's value,
the same holds of the merged list, for any candidate list. -/
theorem C7_keyDistinct_invariant (C E : List Item) (k : String)
    (h : keyDistinct k E) : keyDistinct k (dedupe_and_merge C E k).1 :=
  keyDistinct_merge k C E 0 h

/-- C7, witness: merging a repeated quote into a distinct-keyed list keeps the
keys distinct. -/
theorem C7_witness :
    keyDistinct "content" (dedupe_and_merge [quoteA, quoteA] [quoteB] "content").1 :=
  C7_keyDistinct_invariant [quoteA, quoteA] [quoteB] "content" (by simp [keyDistinct])

/-- C8: the video adapter never raises: it always returns `Except.ok`, returns
the empty list when the API key is unset (empty), and returns the empty list
whenever the query fails. -/
theorem C8_fetch_videos_never_fails :
    ∀ (key : String) (o : ApiOutcome) (m : String),
      (∃ l, fetch_recent_youtube_videos key o = Except.ok l) ∧
      fetch_recent_youtube_videos "" o = Except.ok [] ∧
      fetch_recent_youtube_videos key (ApiOutcome.failure m) = Except.ok [] := by
  intro key o m
  refine ⟨?_, ?_, ?_⟩
  · unfold fetch_recent_youtube_videos
    split
    · exact ⟨[], rfl⟩
    · cases o with
      | success items => exact ⟨items.map video_item_of, rfl⟩
      | failure msg => exact ⟨[], rfl⟩
  · simp [fetch_recent_youtube_videos]
  · unfold fetch_recent_youtube_videos
    split
    · rfl
    · rfl

/-- C9: with a key configured, a successful query maps each search result to
an item whose fields are exactly the mapped ones: title, description truncated
to at most 300 characters, constructed watch url, high-res thumbnail, the
first 10 characters of the published timestamp as date, the fixed source
label, the tags video and youtube, and type video. -/
theorem C9_video_mapping (key : String) (rs : List SearchResult) (h : key ≠ "") :
    fetch_recent_youtube_videos key (ApiOutcome.success rs) =
      Except.ok (rs.map video_item_of) ∧
    ∀ r : SearchResult,
      getField (video_item_of r) "title" = some (Value.str r.title) ∧
      getField (video_item_of r) "description" =
        some (Value.str (pySlice r.description 300)) ∧
      (pySlice r.description 300).length ≤ 300 ∧
      getField (video_item_of r) "url" =
        some (Value.str ("https://www.youtube.com/watch?v=" ++ r.videoId)) ∧
      getField (video_item_of r) "thumbnail" = some (Value.str r.thumbnailHigh) ∧
      getField (video_item_of r) "date" = some (Value.str (pySlice r.publishedAt 10)) ∧
      getField (video_item_of r) "source" = some (Value.str "YouTube Official") ∧
      getField (video_item_of r) "tags" = some (Value.strs ["video", "youtube"]) ∧
      getField (video_item_of r) "type" = some (Value.str "video") := by
  constructor
  · simp [fetch_recent_youtube_videos, h]
  · intro r
    exact ⟨rfl, rfl, pySlice_length_le r.description 300, rfl, rfl, rfl, rfl, rfl, rfl⟩

/-- C9, witness at a concrete key and search result. -/
theorem C9_witness :
    fetch_recent_youtube_videos "k" (ApiOutcome.success [sampleResult]) =
      Except.ok [video_item_of sampleResult] :=
  (C9_video_mapping "k" [sampleResult] (by decide)).1

/-- C10: the merge never disturbs existing items: the original existing list
is a contiguous suffix of the updated list, and the updated length is the
original length plus the number of added items. -/
theorem C10_merge_frame (C E : List Item) (k : String) :
    (∃ A : List Item, (dedupe_and_merge C E k).1 = A ++ E) ∧
    (dedupe_and_merge C E k).1.length = E.length + (dedupe_and_merge C E k).2 := by
  obtain ⟨A, hA, h1, h2⟩ := merge_structure k C E 0
  constructor
  · exact ⟨A.reverse, h1⟩
  · rw [show (dedupe_and_merge C E k).1 = A.reverse ++ E from h1,
      show (dedupe_and_merge C E k).2 = A.length from by simpa using h2]
    simp [List.length_append, List.length_reverse, Nat.add_comm]
